import Mathlib

/-!
Verification development for the LNG-Alpha-Feed ingestion funnel.

Shallow embedding of the Python sources:
  app/modules/sentiment.py   — AsyncSentimentAnalyzer (local heuristic + LLM path)
  app/modules/classifier.py  — FastClassifier
  app/modules/harvester.py   — WhitelistFilter, keyword pre-filter, Jetstream
                               envelope parser, enqueue step, reconnect backoff

Python floats are modelled as rationals, Python strings as Lean strings, and
compiled regex patterns either as literal keyword alternations (where the
pattern is a literal alternation) or as opaque matcher functions
String → Bool (where a claim holds for every pattern).
-/

namespace LngAlphaFeed

/-! ## Substring search

Case-insensitive regex search of a literal alternation `(?i)(kw1|kw2|...)`
is: some keyword occurs as a substring of the lowercased text. -/

/-- Does the list start with the given pattern? -/
def startsWithSeq : List Char → List Char → Bool
  | [], _ => true
  | _ :: _, [] => false
  | p :: ps, c :: cs => p == c && startsWithSeq ps cs

/-- Does the pattern occur as a contiguous subsequence? -/
def containsSeq (pat : List Char) : List Char → Bool
  | [] => pat.isEmpty
  | l@(_ :: rest) => startsWithSeq pat l || containsSeq pat rest

/-- Python `str.lower()`, modelled character-wise (faithful on ASCII,
which covers every configured keyword and identifier). -/
def strLower (s : String) : String := String.mk (s.data.map Char.toLower)

/-- Python `str.upper()`, modelled character-wise. -/
def strUpper (s : String) : String := String.mk (s.data.map Char.toUpper)

/-- Case-insensitive substring test: Python `kw in text.lower()` for a
lowercase keyword `kw`, and the search of one branch of a `(?i)(...)`
literal alternation. -/
def kwIn (kw : String) (text : String) : Bool :=
  containsSeq kw.data (strLower text).data

/-! ## sentiment.py — SentimentResult and the analyzer -/

/-- `SentimentResult` from sentiment.py.  `sentiment` is kept as a string,
as in the source (a `Literal` type hint does not restrict the runtime
value); `confidence` is a Python float, modelled as a rational. -/
structure SentimentResult where
  sentiment : String
  confidence : ℚ
  reason : String
deriving DecidableEq, Repr

/-- Keywords of `_BULLISH_RE = (?i)(outage|strike|force majeure|shutdown|
suspension|explosion|leak|evacuate|work ban|delay)`. -/
def bullishKeywords : List String :=
  ["outage", "strike", "force majeure", "shutdown", "suspension",
   "explosion", "leak", "evacuate", "work ban", "delay"]

/-- Literal keywords of `_BEARISH_RE = (?i)(restart|resume|ramp.up|
back online|reopen|commissioning|surplus|inventory build)`; the branch
`ramp.up` (with a metacharacter dot) is handled separately below. -/
def bearishKeywords : List String :=
  ["restart", "resume", "back online", "reopen", "commissioning",
   "surplus", "inventory build"]

/-- Does the list start with a match of `ramp.up`?  The dot matches any
single character except a newline (no DOTALL flag on this pattern). -/
def rampUpAt : List Char → Bool
  | 'r' :: 'a' :: 'm' :: 'p' :: c :: 'u' :: 'p' :: _ => !(c == '\n')
  | _ => false

/-- Search for `ramp.up` anywhere in the list. -/
def rampUpSearch : List Char → Bool
  | [] => false
  | l@(_ :: rest) => rampUpAt l || rampUpSearch rest

/-- `bool(_BULLISH_RE.search(text))`. -/
def bullMatch (text : String) : Bool :=
  bullishKeywords.any (fun kw => kwIn kw text)

/-- `bool(_BEARISH_RE.search(text))`. -/
def bearMatch (text : String) : Bool :=
  bearishKeywords.any (fun kw => kwIn kw text)
    || rampUpSearch (strLower text).data

/-- `AsyncSentimentAnalyzer._analyze_local`. -/
def analyzeLocal (text : String) : SentimentResult :=
  let bull := bullMatch text
  let bear := bearMatch text
  if bull && !bear then ⟨"BULLISH", 0.75, "Supply disruption keyword detected"⟩
  else if bear && !bull then ⟨"BEARISH", 0.70, "Supply recovery keyword detected"⟩
  else if bull && bear then ⟨"NEUTRAL", 0.40, "Mixed signals in text"⟩
  else ⟨"NEUTRAL", 0.30, "No strong directional keyword"⟩

/-- The dict obtained from a successfully parsed LLM response, after the
`str(...)` / `float(...)` coercions of `_analyze_llm` succeeded.  Each
field is `none` when the key is absent (the source then applies the
`data.get` default). -/
structure LLMData where
  sentiment : Option String
  confidence : Option ℚ
  reason : Option String
deriving DecidableEq, Repr

/-- Outcome of one remote analysis attempt, as observed by the `try`
block of `_analyze_llm`: either some exception was raised anywhere in the
block (API error, timeout, `_extract_json` failure, `float(...)` failure —
all reach the same `except Exception` handler), or a parsed response dict
was obtained. -/
inductive RemoteOutcome where
  | raises (excName : String)
  | returns (data : LLMData)
deriving DecidableEq, Repr

/-- The allowed sentiment values checked by `_analyze_llm`. -/
def allowedSentiments : List String := ["BULLISH", "BEARISH", "NEUTRAL"]

/-- `AsyncSentimentAnalyzer._analyze_llm`, with the remote call abstracted
into its observed outcome. -/
def analyzeLLM (outcome : RemoteOutcome) (text : String) : SentimentResult :=
  match outcome with
  | .returns d =>
      let s0 := strUpper (d.sentiment.getD "NEUTRAL")
      let s := if allowedSentiments.contains s0 then s0 else "NEUTRAL"
      { sentiment := s
        confidence := d.confidence.getD 0.5
        reason := d.reason.getD "" }
  | .raises exc =>
      let r := analyzeLocal text
      { r with reason := "LLM fallback (" ++ exc ++ "): " ++ r.reason }

/-- `AsyncSentimentAnalyzer.analyze`: when `_llm_client` is configured
(`some outcome`, the remote attempt abstracted into its outcome) take the
LLM path, otherwise the local path. -/
def analyze (client : Option RemoteOutcome) (text : String) : SentimentResult :=
  match client with
  | some outcome => analyzeLLM outcome text
  | none => analyzeLocal text

/-! ## classifier.py — FastClassifier -/

/-- `ClassifiedSignal` from classifier.py. -/
structure ClassifiedSignal where
  category : String
  tickers : List String
  matched_rules : List String
  raw_text : String
deriving DecidableEq, Repr

/-- `FastClassifier` state after `__init__`: the compiled noise pattern
and the compiled rule table (insertion order of the `RULES` dict =
declaration order) as opaque matchers, plus `ASSET_MAP.get(·, [])`. -/
structure FastClassifier where
  noiseRe : String → Bool
  rules : List (String × (String → Bool))
  assetMap : String → List String

/-- `list(dict.fromkeys(l))` — deduplication keeping first occurrences,
recursion over the list with the set of already-seen keys. -/
def dedupKeysAux (seen : List String) : List String → List String
  | [] => []
  | x :: xs =>
      if seen.contains x then dedupKeysAux seen xs
      else x :: dedupKeysAux (seen ++ [x]) xs

/-- `list(dict.fromkeys(l))`. -/
def dedupKeys (l : List String) : List String := dedupKeysAux [] l

/-- The rule-scanning loop of `classify`: one pass over the rule table,
appending each matching category to `matched_rules` and its mapped
instruments to `all_tickers`. -/
def classifyFold (fc : FastClassifier) (text : String) :
    List String × List String :=
  fc.rules.foldl
    (fun acc rule =>
      if rule.2 text then (acc.1 ++ [rule.1], acc.2 ++ fc.assetMap rule.1)
      else acc)
    ([], [])

/-- `FastClassifier.classify`. -/
def FastClassifier.classify (fc : FastClassifier) (text : String) :
    Option ClassifiedSignal :=
  if fc.noiseRe text then none
  else
    match (classifyFold fc text).1, (classifyFold fc text).2 with
    | [], _ => none
    | primary :: rest, allTickers =>
        some { category := primary
               tickers := dedupKeys allTickers
               matched_rules := primary :: rest
               raw_text := text }

/-- The candidate ticker list of a `classify` run: concatenation of the
instrument lists of all matched categories, in rule-declaration order. -/
def candidateTickers (fc : FastClassifier) (text : String) : List String :=
  (fc.rules.filter (fun r => r.2 text)).flatMap (fun r => fc.assetMap r.1)

/-! ## harvester.py — whitelist filter, keyword filter, should-process -/

/-- `CROSS_COMMODITY_KEYWORDS` from config.py. -/
def crossCommodityKeywords : List String :=
  [" lng ", " lng,", " lng.", "lng terminal", "lng cargo", "lng carrier",
   "jkm ", "ttf ", "natural gas", "gas price", "gas market",
   "henry hub", "nbp ",
   "spot cargo", "tender offer", "fob cargo", "des cargo",
   "force majeure",
   "jepx", "japan power", "tepco", "nuclear restart", "thermal limit",
   "freeport lng", "sabine pass", "cheniere", "cameron lng", "corpus christi",
   "gorgon", "prelude", "wheatstone", "ichthys", "darwin lng", "pluto lng",
   "woodside", "qatar energy", "north field",
   "opec", "brent crude", "wti crude", "crude oil", "oil embargo",
   "maran gas", "panama canal", "suez canal", "charter rate",
   "offshore alliance", "work ban", "industrial action"]

/-- `_passes_keyword_filter`. -/
def passesKeywordFilter (text : String) : Bool :=
  crossCommodityKeywords.any (fun kw => kwIn kw text)

/-- `WhitelistFilter` state: lowered configured DIDs, normalized configured
handles, and the DIDs resolved from handles during `warm_up` (lowered). -/
structure WhitelistFilter where
  dids : List String
  handles : List String
  resolvedDids : List String
deriving DecidableEq, Repr

/-- Python `h.lstrip("@")`: drop every leading at-sign. -/
def lstripAt (l : List Char) : List Char := l.dropWhile (fun c => c == '@')

/-- `WhitelistFilter.__init__` plus the effect of `warm_up`:
`dids  = {d.lower() for d in wlDids if d}`,
`handles = {h.lower().lstrip("@") for h in wlHandles if h}`,
and each successfully resolved DID is added lowered
(`self._resolved_dids.add(did.lower())`). -/
def WhitelistFilter.init (wlDids wlHandles resolved : List String) :
    WhitelistFilter :=
  { dids := (wlDids.filter (fun d => !d.isEmpty)).map strLower
    handles := (wlHandles.filter (fun h => !h.isEmpty)).map
      (fun h => String.mk (lstripAt (strLower h).data))
    resolvedDids := resolved.map strLower }

/-- `WhitelistFilter.is_whitelisted`. -/
def WhitelistFilter.isWhitelisted (w : WhitelistFilter) (did : String) :
    Bool :=
  let d := strLower did
  w.dids.contains d || w.resolvedDids.contains d

/-- `WhitelistFilter.is_empty`. -/
def WhitelistFilter.isEmpty (w : WhitelistFilter) : Bool :=
  w.dids.isEmpty && w.handles.isEmpty && w.resolvedDids.isEmpty

/-- The `_stats` dict of `JetstreamClient`. -/
structure HarvesterStats where
  received : ℕ
  passed_whitelist : ℕ
  passed_keyword : ℕ
  queued : ℕ
deriving DecidableEq, Repr

/-- `JetstreamClient` state relevant to filtering and enqueueing: the
bounded output queue (with its `maxsize`), the whitelist filter, the
lowered `HARVESTER_MODE`, and the stats counters. -/
structure JetstreamClient where
  queue : List (String × String)
  capacity : ℕ
  whitelist : WhitelistFilter
  mode : String
  stats : HarvesterStats

/-- `JetstreamClient._should_process`: the accept decision together with
the updated stats counters. -/
def shouldProcess (c : JetstreamClient) (text did : String) :
    Bool × HarvesterStats :=
  let wlHit := c.whitelist.isWhitelisted did
  let kwHit := passesKeywordFilter text
  if c.mode == "whitelist" then
    if c.whitelist.isEmpty then
      (kwHit, { c.stats with
                passed_keyword := c.stats.passed_keyword + (if kwHit then 1 else 0) })
    else
      (wlHit, { c.stats with
                passed_whitelist := c.stats.passed_whitelist + (if wlHit then 1 else 0) })
  else if c.mode == "both" then
    if wlHit then
      (true, { c.stats with passed_whitelist := c.stats.passed_whitelist + 1 })
    else
      (kwHit, { c.stats with
                passed_keyword := c.stats.passed_keyword + (if kwHit then 1 else 0) })
  else
    (kwHit, { c.stats with
              passed_keyword := c.stats.passed_keyword + (if kwHit then 1 else 0) })

/-- The enqueue step of `_read_loop` (lines 205–209): increment
`stats["queued"]`, then `put_nowait`; `asyncio.QueueFull` is raised iff
the queue is bounded (`maxsize > 0`) and at capacity, in which case the
item is dropped and only a warning is logged. -/
def enqueueStep (c : JetstreamClient) (item : String × String) :
    JetstreamClient :=
  let stats := { c.stats with queued := c.stats.queued + 1 }
  if c.capacity != 0 && c.capacity ≤ c.queue.length then
    { c with stats := stats }
  else
    { c with queue := c.queue ++ [item], stats := stats }

/-! ## harvester.py — reconnect backoff -/

/-- One iteration of the `while True` loop of `JetstreamClient.start`:
either the connection attempt raised before a session was established
(`failed`), or a session was established and later ended with a raised
disconnect (`connected`).  In both cases the exception reaches the same
`except` handler, which sleeps `backoff` seconds and then doubles it
(capped at 60); no statement of the loop ever resets `backoff`. -/
inductive ConnEvent where
  | failed
  | connected
deriving DecidableEq, Repr

/-- `backoff = min(backoff * 2, 60)`. -/
def backoffAfter (b : ℕ) : ℕ := min (b * 2) 60

/-- The successive sleep durations of `JetstreamClient.start` for a given
sequence of connection events, starting from backoff value `b`
(`backoff = 1` at loop entry). -/
def backoffWaits (b : ℕ) : List ConnEvent → List ℕ
  | [] => []
  | .failed :: es => b :: backoffWaits (backoffAfter b) es
  | .connected :: es => b :: backoffWaits (backoffAfter b) es

/-! ## harvester.py — Jetstream envelope parser -/

/-- `commit.record` of a Jetstream envelope. -/
structure JetRecord where
  text : Option String
deriving DecidableEq, Repr

/-- `commit` of a Jetstream envelope. -/
structure JetCommit where
  operation : Option String
  collection : Option String
  record : Option JetRecord
deriving DecidableEq, Repr

/-- A decoded Jetstream JSON envelope; absent keys are `none`. -/
structure JetMsg where
  did : Option String
  kind : Option String
  commit : Option JetCommit
deriving DecidableEq, Repr

/-- The raw wire message: either invalid JSON or a decoded envelope. -/
inductive RawMsg where
  | malformed
  | parsed (msg : JetMsg)
deriving DecidableEq, Repr

/-- Python `str.strip()`: remove trailing whitespace (via reversal), then
leading whitespace. -/
def pyStrip (l : List Char) : List Char :=
  ((l.reverse.dropWhile Char.isWhitespace).reverse).dropWhile Char.isWhitespace

/-- The record text a Jetstream envelope carries before stripping:
`msg.get("commit", ...).get("record", {}).get("text", "")`. -/
def recordText (msg : JetMsg) : String :=
  match msg.commit with
  | none => ""
  | some c => ((c.record.getD ⟨none⟩).text.getD "")

/-- The commit-level checks of `_parse_jetstream_msg`: operation and
collection discriminators, then the stripped-text emptiness check. -/
def parseCommit (msg : JetMsg) (commit : JetCommit) :
    Option (String × String) :=
  if commit.operation ≠ some "create" then none
  else if commit.collection ≠ some "app.bsky.feed.post" then none
  else
    let text := String.mk (pyStrip ((commit.record.getD ⟨none⟩).text.getD "").data)
    if text = "" then none
    else some (text, msg.did.getD "unknown")

/-- `_parse_jetstream_msg`.  (A present-but-empty `commit` dict is falsy
in Python and returns `None` early; in this model it instead fails the
`operation` check, with the same result.) -/
def parseJetstreamMsg (raw : RawMsg) : Option (String × String) :=
  match raw with
  | .malformed => none
  | .parsed msg =>
    if msg.kind ≠ some "commit" then none
    else
      match msg.commit with
      | none => none
      | some commit => parseCommit msg commit

/-! ## Concrete instances used to exercise the theorems

A classifier instance whose matchers are the configured patterns of
config.py specialized to single literal keywords, and small harvester
clients in various states. -/

/-- A concrete rule table (subset of `RULES`, declaration order kept). -/
def demoRules : List (String × (String → Bool)) :=
  [("LNG_SUPPLY", fun t => kwIn "gorgon" t || kwIn "outage" t),
   ("LABOR_STRIKE", fun t => kwIn "strike" t)]

/-- A concrete `ASSET_MAP.get(·, [])` (subset of `ASSET_MAP`). -/
def demoAssetMap : String → List String
  | "LNG_SUPPLY" => ["UNG", "TTF=F"]
  | "LABOR_STRIKE" => ["UNG", "TTF=F"]
  | _ => []

/-- A concrete classifier with a noise matcher drawn from `NOISE_PATTERN`. -/
def demoClassifier : FastClassifier :=
  { noiseRe := fun t => kwIn "webinar" t || kwIn "climate change" t
    rules := demoRules
    assetMap := demoAssetMap }

/-- The signal `demoClassifier` produces on a text both rules match. -/
def demoSig : ClassifiedSignal :=
  { category := "LNG_SUPPLY"
    tickers := ["UNG", "TTF=F"]
    matched_rules := ["LNG_SUPPLY", "LABOR_STRIKE"]
    raw_text := "Gorgon LNG workers vote to strike" }

/-- Zeroed stats counters, as at `JetstreamClient.__init__`. -/
def demoStats : HarvesterStats := ⟨0, 0, 0, 0⟩

/-- A whitelist-mode client with one configured DID. -/
def demoClientWhitelist : JetstreamClient :=
  { queue := []
    capacity := 5000
    whitelist := WhitelistFilter.init ["did:plc:abc"] [] []
    mode := "whitelist"
    stats := demoStats }

/-- A whitelist-mode client with nothing configured or resolved. -/
def demoClientEmptyWl : JetstreamClient :=
  { queue := []
    capacity := 5000
    whitelist := WhitelistFilter.init [] [] []
    mode := "whitelist"
    stats := demoStats }

/-- A whitelist-mode client in the shipped configuration after a failed
warm-up: `WHITELIST_DIDS` empty, the three configured handles of
config.py, and no handle resolved to a DID. -/
def demoClientUnresolved : JetstreamClient :=
  { queue := []
    capacity := 5000
    whitelist := WhitelistFilter.init []
      ["javierblas.bsky.social", "faborrell.bsky.social",
       "energyintel.bsky.social"] []
    mode := "whitelist"
    stats := demoStats }

/-- A keyword-mode client whose bounded queue is at capacity. -/
def demoClientFull : JetstreamClient :=
  { queue := [("older post", "did:plc:a")]
    capacity := 1
    whitelist := WhitelistFilter.init [] [] []
    mode := "keyword"
    stats := demoStats }

/-- The same client with room in the queue. -/
def demoClientFree : JetstreamClient :=
  { demoClientFull with queue := [] }

/-- A well-formed Jetstream envelope whose text has surrounding blanks. -/
def demoEnvelope : JetMsg :=
  { did := some "did:plc:x"
    kind := some "commit"
    commit := some
      { operation := some "create"
        collection := some "app.bsky.feed.post"
        record := some { text := some "  hello  " } } }

/-- The same envelope with whitespace-only text. -/
def demoEnvelopeBlank : JetMsg :=
  { demoEnvelope with
    commit := some
      { operation := some "create"
        collection := some "app.bsky.feed.post"
        record := some { text := some "   " } } }

/-! ## List helper lemmas -/

theorem head_dropWhile_false {α : Type} (p : α → Bool) (l : List α) (c : α)
    (h : (l.dropWhile p).head? = some c) : p c = false := by
  induction l with
  | nil => simp [List.dropWhile_nil] at h
  | cons a t ih =>
      rw [List.dropWhile_cons] at h
      by_cases hp : p a
      · rw [if_pos hp] at h
        exact ih h
      · rw [if_neg hp, List.head?_cons] at h
        injection h with h
        subst h
        exact Bool.eq_false_iff.mpr hp

theorem getLast_dropWhile_eq {α : Type} (p : α → Bool) (l : List α)
    (h : l.dropWhile p ≠ []) :
    (l.dropWhile p).getLast? = l.getLast? := by
  induction l with
  | nil => simp [List.dropWhile_nil] at h
  | cons a t ih =>
      rw [List.dropWhile_cons] at h ⊢
      by_cases hp : p a
      · rw [if_pos hp] at h ⊢
        have ht : t ≠ [] := by
          intro he
          rw [he] at h
          simp [List.dropWhile_nil] at h
        rw [ih h]
        cases t with
        | nil => exact absurd rfl ht
        | cons b u => rw [List.getLast?_cons_cons]
      · rw [if_neg hp]

theorem getLast_reverse_eq_head {α : Type} (l : List α) :
    l.reverse.getLast? = l.head? := by
  cases l with
  | nil => rfl
  | cons a t => rw [List.reverse_cons, List.getLast?_concat, List.head?_cons]

theorem find_eq_head_filter {α : Type} (p : α → Bool) (l : List α) :
    l.find? p = (l.filter p).head? := by
  induction l with
  | nil => rfl
  | cons a t ih =>
      cases hpa : p a
      · simp only [List.find?_cons, List.filter_cons, hpa, ih]
        simp
      · simp only [List.find?_cons, List.filter_cons, hpa]
        simp

theorem mem_dedupKeysAux (x : String) (l : List String) :
    ∀ (seen : List String),
      x ∈ dedupKeysAux seen l ↔ x ∈ l ∧ x ∉ seen := by
  induction l with
  | nil => intro seen; simp [dedupKeysAux]
  | cons a t ih =>
      intro seen
      rw [dedupKeysAux]
      by_cases ha : seen.contains a
      · have ha' : a ∈ seen := by simpa using ha
        rw [if_pos ha, ih]
        constructor
        · rintro ⟨hxt, hxs⟩
          exact ⟨List.mem_cons_of_mem a hxt, hxs⟩
        · rintro ⟨hx, hxs⟩
          rcases List.mem_cons.mp hx with hxa | hxt
          · exact absurd (hxa ▸ ha') hxs
          · exact ⟨hxt, hxs⟩
      · have ha' : a ∉ seen := by simpa using ha
        rw [if_neg ha]
        constructor
        · intro hx
          rcases List.mem_cons.mp hx with hxa | hxt
          · exact ⟨List.mem_cons.mpr (Or.inl hxa), hxa ▸ ha'⟩
          · have hr := (ih (seen ++ [a])).mp hxt
            exact ⟨List.mem_cons_of_mem a hr.1,
              fun hs => hr.2 (List.mem_append.mpr (Or.inl hs))⟩
        · rintro ⟨hx, hxs⟩
          rcases List.mem_cons.mp hx with hxa | hxt
          · exact List.mem_cons.mpr (Or.inl hxa)
          · by_cases hxa : x = a
            · exact List.mem_cons.mpr (Or.inl hxa)
            · refine List.mem_cons.mpr (Or.inr ((ih (seen ++ [a])).mpr ⟨hxt, ?_⟩))
              intro hs
              rcases List.mem_append.mp hs with h1 | h2
              · exact hxs h1
              · exact hxa (List.mem_singleton.mp h2)

theorem dedupKeysAux_pairwise (l : List String) :
    ∀ (seen : List String),
      (dedupKeysAux seen l).Pairwise
        (fun a b => List.indexOf a l < List.indexOf b l) := by
  induction l with
  | nil => intro seen; simp [dedupKeysAux]
  | cons x xs ih =>
      intro seen
      rw [dedupKeysAux]
      by_cases hx : seen.contains x
      · have hx' : x ∈ seen := by simpa using hx
        rw [if_pos hx]
        refine List.Pairwise.imp_of_mem ?_ (ih seen)
        intro a b ha hb hab
        have hax : x ≠ a := by
          intro he
          exact ((mem_dedupKeysAux a xs seen).mp ha).2 (he ▸ hx')
        have hbx : x ≠ b := by
          intro he
          exact ((mem_dedupKeysAux b xs seen).mp hb).2 (he ▸ hx')
        rw [List.indexOf_cons_ne xs hax, List.indexOf_cons_ne xs hbx]
        exact Nat.succ_lt_succ hab
      · rw [if_neg hx]
        refine List.Pairwise.cons ?_ ?_
        · intro b hb
          have hbs := (mem_dedupKeysAux b xs (seen ++ [x])).mp hb
          have hbx : x ≠ b := by
            intro he
            exact hbs.2 (List.mem_append.mpr (Or.inr (he ▸ List.mem_singleton_self x)))
          rw [List.indexOf_cons_self, List.indexOf_cons_ne xs hbx]
          exact Nat.succ_pos _
        · refine List.Pairwise.imp_of_mem ?_ (ih (seen ++ [x]))
          intro a b ha hb hab
          have hax : x ≠ a := by
            intro he
            exact ((mem_dedupKeysAux a xs (seen ++ [x])).mp ha).2
              (List.mem_append.mpr (Or.inr (he ▸ List.mem_singleton_self x)))
          have hbx : x ≠ b := by
            intro he
            exact ((mem_dedupKeysAux b xs (seen ++ [x])).mp hb).2
              (List.mem_append.mpr (Or.inr (he ▸ List.mem_singleton_self x)))
          rw [List.indexOf_cons_ne xs hax, List.indexOf_cons_ne xs hbx]
          exact Nat.succ_lt_succ hab

theorem classifyFold_eq (fc : FastClassifier) (text : String) :
    classifyFold fc text
      = ((fc.rules.filter (fun r => r.2 text)).map Prod.fst,
         candidateTickers fc text) := by
  have key : ∀ (rules : List (String × (String → Bool)))
      (acc : List String × List String),
      rules.foldl
        (fun acc rule =>
          if rule.2 text then (acc.1 ++ [rule.1], acc.2 ++ fc.assetMap rule.1)
          else acc) acc
        = (acc.1 ++ (rules.filter (fun r => r.2 text)).map Prod.fst,
           acc.2 ++ (rules.filter (fun r => r.2 text)).flatMap
             (fun r => fc.assetMap r.1)) := by
    intro rules
    induction rules with
    | nil => intro acc; simp
    | cons r rs ihr =>
        intro acc
        by_cases hr : r.2 text
        · simp [List.foldl_cons, hr, ihr, List.filter_cons]
        · simp [List.foldl_cons, hr, ihr, List.filter_cons]
  have := key fc.rules ([], [])
  simpa [classifyFold, candidateTickers] using this

theorem pyStrip_eq_nil (l : List Char)
    (h : ∀ c ∈ l, c.isWhitespace = true) : pyStrip l = [] := by
  have h1 : l.reverse.dropWhile Char.isWhitespace = [] :=
    List.dropWhile_eq_nil_iff.mpr (fun x hx => h x (List.mem_reverse.mp hx))
  show ((l.reverse.dropWhile Char.isWhitespace).reverse).dropWhile
      Char.isWhitespace = []
  rw [h1, List.reverse_nil, List.dropWhile_nil]

/-! ## Claim theorems -/

/-- Claim C1.  The claim states that the reconnect waits double (capped at
60 s) and that a successful reconnection resets the backoff to 1 s.  The
code keeps no reset: the comment at the reconnection point announces one,
but no assignment performs it, so the wait after a successful session that
later drops continues the doubling (here 4 s, then 8 s) instead of
restarting at 1 s.  Consecutive-failure doubling and the 60 s cap do hold
(second conjunct). -/
theorem backoffWaits_eval :
    backoffWaits 1 [.failed, .failed, .connected, .failed] = [1, 2, 4, 8]
  ∧ backoffWaits 1
      [.failed, .failed, .failed, .failed, .failed, .failed, .failed, .failed]
      = [1, 2, 4, 8, 16, 32, 60, 60] := by
  exact ⟨rfl, rfl⟩

/-- Claim C2 counterexample.  At capacity the accepted item is indeed
dropped, but no overflow counter exists: the stats after a drop are
identical to the stats after a successful enqueue (the `queued` counter is
incremented in both cases, before `put_nowait` is attempted), so no
counter increases by 1 exactly on overflow and stays unchanged below
capacity. -/
theorem enqueue_no_overflow_counter :
    (enqueueStep demoClientFull ("new post", "did:plc:b")).queue
      = demoClientFull.queue
  ∧ (enqueueStep demoClientFree ("new post", "did:plc:b")).queue
      = [("new post", "did:plc:b")]
  ∧ (enqueueStep demoClientFull ("new post", "did:plc:b")).stats
      = (enqueueStep demoClientFree ("new post", "did:plc:b")).stats
  ∧ (enqueueStep demoClientFull ("new post", "did:plc:b")).stats.queued
      = demoClientFull.stats.queued + 1 := by
  refine ⟨?_, ?_, ?_, ?_⟩ <;> decide

/-- Claim C2 (amended): enqueue never blocks — when the bounded queue is at
capacity the accepted item is dropped (not enqueued, not retried) and only
a warning is logged; below capacity the item is appended.  In both cases
the `queued` stats counter increases by exactly 1 and the remaining
counters are unchanged; the code maintains no overflow counter. -/
theorem enqueueStep_spec (c : JetstreamClient) (item : String × String) :
    (c.capacity ≠ 0 → c.capacity ≤ c.queue.length →
        (enqueueStep c item).queue = c.queue)
  ∧ (c.queue.length < c.capacity →
        (enqueueStep c item).queue = c.queue ++ [item])
  ∧ (enqueueStep c item).stats.queued = c.stats.queued + 1
  ∧ (enqueueStep c item).stats.received = c.stats.received
  ∧ (enqueueStep c item).stats.passed_whitelist = c.stats.passed_whitelist
  ∧ (enqueueStep c item).stats.passed_keyword = c.stats.passed_keyword := by
  refine ⟨?_, ?_, ?_, ?_, ?_, ?_⟩
  · intro h0 hle
    have hc : (c.capacity != 0 && decide (c.capacity ≤ c.queue.length)) = true := by
      simp [h0, hle]
    simp [enqueueStep, hc]
  · intro hlt
    have hc : ¬ ((c.capacity != 0 && decide (c.capacity ≤ c.queue.length)) = true) := by
      simp only [Bool.and_eq_true, bne_iff_ne, ne_eq, decide_eq_true_eq]
      rintro ⟨h0, hle⟩
      omega
    simp [enqueueStep, hc]
  · simp only [enqueueStep]
    split <;> rfl
  · simp only [enqueueStep]
    split <;> rfl
  · simp only [enqueueStep]
    split <;> rfl
  · simp only [enqueueStep]
    split <;> rfl

/-- Witness for `enqueueStep_spec`: the full client drops, the free client
appends. -/
theorem enqueueStep_spec_witness :
    (enqueueStep demoClientFull ("p", "d")).queue = demoClientFull.queue
  ∧ (enqueueStep demoClientFree ("p", "d")).queue
      = demoClientFree.queue ++ [("p", "d")] :=
  ⟨(enqueueStep_spec demoClientFull ("p", "d")).1 (by decide) (by decide),
   (enqueueStep_spec demoClientFree ("p", "d")).2.1 (by decide)⟩

/-- Claim C4 counterexample.  When the remote call fails, the result is not
equal to the local heuristic output in all three fields: the reason is
prefixed with the failure annotation. -/
theorem analyze_fallback_not_equal_local :
    analyze (some (.raises "TimeoutError")) "" ≠ analyzeLocal ""
  ∧ (analyze (some (.raises "TimeoutError")) "").reason
      = "LLM fallback (TimeoutError): No strong directional keyword"
  ∧ (analyzeLocal "").reason = "No strong directional keyword" := by
  refine ⟨?_, ?_, ?_⟩
  · intro h
    have h2 := congrArg SentimentResult.reason h
    revert h2
    decide
  · decide
  · decide

/-- Claim C4 (amended): when the remote path is not configured, `analyze`
returns exactly the local heuristic result; when every remote call fails,
it equals the local result in sentiment and confidence, and the reason is
the local reason prefixed with the failure-cause annotation. -/
theorem analyze_fallback_spec (t exc : String) :
    analyze none t = analyzeLocal t
  ∧ (analyze (some (.raises exc)) t).sentiment = (analyzeLocal t).sentiment
  ∧ (analyze (some (.raises exc)) t).confidence = (analyzeLocal t).confidence
  ∧ (analyze (some (.raises exc)) t).reason
      = "LLM fallback (" ++ exc ++ "): " ++ (analyzeLocal t).reason :=
  ⟨rfl, rfl, rfl, rfl⟩

/-- Claim C5: for every classifier configuration and every text matching
the configured noise pattern, `classify` rejects (returns `none`), even
when category rules would also match — the noise check precedes rule
matching. -/
theorem classify_noise_rejects (fc : FastClassifier) (text : String)
    (h : fc.noiseRe text = true) :
    fc.classify text = none := by
  simp [FastClassifier.classify, h]

/-- Witness for `classify_noise_rejects`: a text that matches the noise
matcher and both category rules is still rejected. -/
theorem classify_noise_rejects_witness :
    demoClassifier.noiseRe "Webinar: the Gorgon outage strike explained" = true
  ∧ (demoRules.filter
      (fun r => r.2 "Webinar: the Gorgon outage strike explained")).length = 2
  ∧ demoClassifier.classify "Webinar: the Gorgon outage strike explained"
      = none :=
  ⟨by decide, by decide,
   classify_noise_rejects demoClassifier _ (by decide)⟩

/-- Claim C8: the local heuristic returns BULLISH 0.75 on a
disruption-only match, BEARISH 0.70 on a recovery-only match, NEUTRAL 0.40
with a mixed-signals reason when both match, and NEUTRAL 0.30 with a
no-directional-signal reason when neither matches. -/
theorem analyzeLocal_cases (t : String) :
    (bullMatch t = true → bearMatch t = false →
        analyzeLocal t = ⟨"BULLISH", 0.75, "Supply disruption keyword detected"⟩)
  ∧ (bearMatch t = true → bullMatch t = false →
        analyzeLocal t = ⟨"BEARISH", 0.70, "Supply recovery keyword detected"⟩)
  ∧ (bullMatch t = true → bearMatch t = true →
        analyzeLocal t = ⟨"NEUTRAL", 0.40, "Mixed signals in text"⟩)
  ∧ (bullMatch t = false → bearMatch t = false →
        analyzeLocal t = ⟨"NEUTRAL", 0.30, "No strong directional keyword"⟩) := by
  refine ⟨?_, ?_, ?_, ?_⟩ <;> intro h1 h2 <;> simp [analyzeLocal, h1, h2]

/-- Witness for `analyzeLocal_cases`: one concrete text per branch. -/
theorem analyzeLocal_cases_witness :
    analyzeLocal "Gorgon outage extended"
      = ⟨"BULLISH", 0.75, "Supply disruption keyword detected"⟩
  ∧ analyzeLocal "Train resumes service"
      = ⟨"BEARISH", 0.70, "Supply recovery keyword detected"⟩
  ∧ analyzeLocal "outage over, plant restart"
      = ⟨"NEUTRAL", 0.40, "Mixed signals in text"⟩
  ∧ analyzeLocal "nothing to see here"
      = ⟨"NEUTRAL", 0.30, "No strong directional keyword"⟩ :=
  ⟨(analyzeLocal_cases _).1 (by decide) (by decide),
   (analyzeLocal_cases _).2.1 (by decide) (by decide),
   (analyzeLocal_cases _).2.2.1 (by decide) (by decide),
   (analyzeLocal_cases _).2.2.2 (by decide) (by decide)⟩

theorem analyzeLocal_sentiment_mem (t : String) :
    (analyzeLocal t).sentiment ∈ allowedSentiments := by
  cases hb : bullMatch t <;> cases hr : bearMatch t <;>
    simp [analyzeLocal, hb, hr, allowedSentiments]

theorem analyzeLocal_confidence_bounds (t : String) :
    0 ≤ (analyzeLocal t).confidence ∧ (analyzeLocal t).confidence ≤ 1 := by
  cases hb : bullMatch t <;> cases hr : bearMatch t <;>
    simp [analyzeLocal, hb, hr] <;> norm_num

/-- Claim C3 counterexample.  On a successfully parsed remote response the
reported confidence is adopted without clamping, so a response carrying
confidence 5 yields a result whose confidence is 5, outside [0, 1]. -/
theorem analyze_confidence_unclamped :
    (analyze (some (.returns ⟨some "BULLISH", some 5, some "r"⟩)) "").confidence = 5
  ∧ ¬ ((analyze (some (.returns ⟨some "BULLISH", some 5, some "r"⟩)) "").confidence ≤ 1) := by
  constructor
  · rfl
  · show ¬ ((5 : ℚ) ≤ 1)
    norm_num

/-- Claim C3 (amended): `analyze` always returns a result (it is total) and
its sentiment is always one of BULLISH, BEARISH, NEUTRAL; the confidence
lies in [0, 1] on the local path and on the failure-fallback path, while on
a successful remote parse it equals the reported value (default 0.5),
which the code does not clamp. -/
theorem analyze_result_spec (client : Option RemoteOutcome) (t : String) :
    (analyze client t).sentiment ∈ allowedSentiments
  ∧ (client = none →
        0 ≤ (analyze client t).confidence ∧ (analyze client t).confidence ≤ 1)
  ∧ (∀ exc, client = some (.raises exc) →
        0 ≤ (analyze client t).confidence ∧ (analyze client t).confidence ≤ 1)
  ∧ (∀ d, client = some (.returns d) →
        (analyze client t).confidence = d.confidence.getD 0.5) := by
  rcases client with _ | outcome
  · exact ⟨analyzeLocal_sentiment_mem t,
      fun _ => analyzeLocal_confidence_bounds t,
      fun exc h => Option.noConfusion h,
      fun d h => Option.noConfusion h⟩
  · rcases outcome with exc | d
    · refine ⟨?_, fun h => Option.noConfusion h, fun e he => ?_, fun d2 hd2 => ?_⟩
      · exact analyzeLocal_sentiment_mem t
      · exact analyzeLocal_confidence_bounds t
      · injection hd2 with hd2
        exact RemoteOutcome.noConfusion hd2
    · refine ⟨?_, fun h => Option.noConfusion h, fun e he => ?_, fun d2 hd2 => ?_⟩
      · show (analyzeLLM (.returns d) t).sentiment ∈ allowedSentiments
        simp only [analyzeLLM]
        by_cases hc : allowedSentiments.contains (strUpper (d.sentiment.getD "NEUTRAL")) = true
        · simp only [hc, if_true]
          simpa using hc
        · simp only [hc, if_false]
          simp [allowedSentiments]
      · injection he with he
        exact RemoteOutcome.noConfusion he
      · injection hd2 with hd2
        injection hd2 with hd2
        subst hd2
        rfl

/-- Witness for `analyze_result_spec`: bounds hold concretely on the
unconfigured and failing paths, and a parsed response's confidence is
adopted as reported. -/
theorem analyze_result_spec_witness :
    (0 ≤ (analyze none "").confidence ∧ (analyze none "").confidence ≤ 1)
  ∧ (0 ≤ (analyze (some (.raises "APIError")) "x").confidence
      ∧ (analyze (some (.raises "APIError")) "x").confidence ≤ 1)
  ∧ (analyze (some (.returns ⟨some "hold", some 0.9, some "r"⟩)) "y").confidence
      = (some (0.9 : ℚ)).getD 0.5 :=
  ⟨(analyze_result_spec none "").2.1 rfl,
   (analyze_result_spec (some (.raises "APIError")) "x").2.2.1 "APIError" rfl,
   (analyze_result_spec (some (.returns ⟨some "hold", some 0.9, some "r"⟩)) "y").2.2.2
     ⟨some "hold", some 0.9, some "r"⟩ rfl⟩

/-- Claim C6: when `classify` returns a signal, the primary category is the
first category in rule-declaration order whose pattern matches the text
(the head of `find?` over the ordered rule table). -/
theorem classify_primary_first (fc : FastClassifier) (text : String)
    (sig : ClassifiedSignal) (h : fc.classify text = some sig) :
    (fc.rules.find? (fun r => r.2 text)).map Prod.fst = some sig.category := by
  simp only [FastClassifier.classify] at h
  by_cases hn : fc.noiseRe text = true
  · rw [if_pos hn] at h
    exact Option.noConfusion h
  · rw [if_neg hn, classifyFold_eq] at h
    rw [find_eq_head_filter]
    cases hf : fc.rules.filter (fun r => r.2 text) with
    | nil =>
        rw [hf] at h
        simp at h
    | cons r0 t0 =>
        rw [hf] at h
        simp only [List.map_cons, Option.some.injEq] at h
        rw [← h]
        simp

/-- Witness for `classify_primary_first`: both demo rules match, and the
primary category is the first-declared one. -/
theorem classify_primary_first_witness :
    (demoClassifier.rules.find?
        (fun r => r.2 "Gorgon LNG workers vote to strike")).map Prod.fst
      = some "LNG_SUPPLY" :=
  classify_primary_first demoClassifier "Gorgon LNG workers vote to strike"
    demoSig (by decide)

/-- Claim C7: the tickers of a produced signal are duplicate-free, contain
exactly the instruments of the matched categories, and their relative
order is the first-occurrence order within the concatenated candidate list
taken in rule-declaration order. -/
theorem classify_tickers_dedup (fc : FastClassifier) (text : String)
    (sig : ClassifiedSignal) (h : fc.classify text = some sig) :
    sig.tickers.Nodup
  ∧ sig.tickers ⊆ candidateTickers fc text
  ∧ candidateTickers fc text ⊆ sig.tickers
  ∧ sig.tickers.Pairwise (fun a b =>
      List.indexOf a (candidateTickers fc text)
        < List.indexOf b (candidateTickers fc text)) := by
  have ht : sig.tickers = dedupKeys (candidateTickers fc text) := by
    simp only [FastClassifier.classify] at h
    by_cases hn : fc.noiseRe text = true
    · rw [if_pos hn] at h
      exact Option.noConfusion h
    · rw [if_neg hn, classifyFold_eq] at h
      cases hf : fc.rules.filter (fun r => r.2 text) with
      | nil =>
          rw [hf] at h
          simp at h
      | cons r0 t0 =>
          rw [hf] at h
          simp only [List.map_cons, Option.some.injEq] at h
          exact (congrArg ClassifiedSignal.tickers h).symm
  have hpw := dedupKeysAux_pairwise (candidateTickers fc text) []
  have hmem : ∀ x, x ∈ dedupKeys (candidateTickers fc text)
      ↔ x ∈ candidateTickers fc text := by
    intro x
    have := mem_dedupKeysAux x (candidateTickers fc text) []
    simpa [dedupKeys] using this
  refine ⟨?_, ?_, ?_, ?_⟩
  · rw [ht]
    refine List.Pairwise.imp ?_ hpw
    intro a b hab heq
    subst heq
    exact Nat.lt_irrefl _ hab
  · rw [ht]
    intro x hx
    exact (hmem x).mp hx
  · intro x hx
    rw [ht]
    exact (hmem x).mpr hx
  · rw [ht]
    exact hpw

/-- Witness for `classify_tickers_dedup`: both demo rules match and map to
the same instruments; the duplicates are removed keeping first-seen
order. -/
theorem classify_tickers_dedup_witness :
    demoClassifier.classify "Gorgon LNG workers vote to strike" = some demoSig
  ∧ demoSig.tickers.Nodup
  ∧ demoSig.tickers
      ⊆ candidateTickers demoClassifier "Gorgon LNG workers vote to strike" :=
  ⟨by decide,
   (classify_tickers_dedup demoClassifier "Gorgon LNG workers vote to strike"
      demoSig (by decide)).1,
   (classify_tickers_dedup demoClassifier "Gorgon LNG workers vote to strike"
      demoSig (by decide)).2.1⟩

/-- Claim C9 counterexample.  In the shipped configuration after a failed
warm-up (no configured DIDs, three configured handles, no alias resolved)
the identity set — configured DIDs plus resolved alias identities — is
empty, yet whitelist mode does not behave like keyword mode: it rejects a
keyword-bearing text that keyword mode accepts, because the code degrades
only on `is_empty`, which additionally requires the configured handles to
be empty.  And the membership test is not literal exact match: an
upper-cased variant of a configured DID is accepted. -/
theorem shouldProcess_whitelist_not_as_claimed :
    demoClientUnresolved.whitelist.dids = []
  ∧ demoClientUnresolved.whitelist.resolvedDids = []
  ∧ (shouldProcess demoClientUnresolved "new lng terminal opens" "did:plc:zzz").1
      = false
  ∧ (shouldProcess { demoClientUnresolved with mode := "keyword" }
      "new lng terminal opens" "did:plc:zzz").1 = true
  ∧ (shouldProcess demoClientWhitelist "any text" "DID:PLC:ABC").1 = true
  ∧ ("DID:PLC:ABC" : String) ≠ "did:plc:abc" := by
  refine ⟨?_, ?_, ?_, ?_, ?_, ?_⟩ <;> decide

/-- Claim C9 (amended): in whitelist mode with a non-empty filter,
acceptance depends only on the source identity — accept iff the lowercased
sourceId is an exact member of the lowercased configured DID set or of the
resolved alias identities; whitelist mode behaves exactly like keyword
mode only when the filter is entirely empty (`is_empty`: no configured
DIDs, no configured handles, and no resolved aliases).  In particular,
when handles are configured but none resolved and no DIDs are configured,
the first conjunct gives membership in two empty sets, so the filter
rejects every input rather than degrading to keyword mode. -/
theorem shouldProcess_whitelist_mode (c : JetstreamClient)
    (wlDids wlHandles resolved : List String) (text did : String)
    (hmode : c.mode = "whitelist")
    (hwl : c.whitelist = WhitelistFilter.init wlDids wlHandles resolved) :
    (c.whitelist.isEmpty = false →
        (shouldProcess c text did).1
          = (((wlDids.filter (fun d => !d.isEmpty)).map strLower).contains (strLower did)
             || ((resolved.map strLower).contains (strLower did))))
  ∧ (c.whitelist.isEmpty = true →
        (shouldProcess c text did).1
          = (shouldProcess { c with mode := "keyword" } text did).1) := by
  constructor
  · intro hne
    have hwhit : c.whitelist.isWhitelisted did
        = (((wlDids.filter (fun d => !d.isEmpty)).map strLower).contains (strLower did)
           || ((resolved.map strLower).contains (strLower did))) := by
      rw [hwl]
      rfl
    rw [← hwhit]
    simp [shouldProcess, hmode, hne]
  · intro he
    have hkw : (shouldProcess { c with mode := "keyword" } text did).1
        = passesKeywordFilter text := rfl
    rw [hkw]
    simp [shouldProcess, hmode, he]

/-- Witness for `shouldProcess_whitelist_mode`: the configured DID is
accepted, and the empty-whitelist client agrees with its keyword-mode
copy. -/
theorem shouldProcess_whitelist_mode_witness :
    (shouldProcess demoClientWhitelist "any text" "did:plc:abc").1 = true
  ∧ (shouldProcess demoClientEmptyWl "new lng terminal opens" "did:plc:zzz").1
      = (shouldProcess { demoClientEmptyWl with mode := "keyword" }
          "new lng terminal opens" "did:plc:zzz").1 :=
  ⟨((shouldProcess_whitelist_mode demoClientWhitelist ["did:plc:abc"] [] []
      "any text" "did:plc:abc" rfl rfl).1 (by decide)).trans (by decide),
   (shouldProcess_whitelist_mode demoClientEmptyWl [] [] []
      "new lng terminal opens" "did:plc:zzz" rfl rfl).2 (by decide)⟩

/-- Claim C10: a text returned by the envelope parser carries no leading or
trailing whitespace, and an envelope whose record text is whitespace-only
is dropped (the parser returns `none`), exactly like an empty text. -/
theorem parse_strips_text :
    (∀ (raw : RawMsg) (t did : String),
        parseJetstreamMsg raw = some (t, did) →
          (∀ c, t.data.head? = some c → c.isWhitespace = false)
        ∧ (∀ c, t.data.getLast? = some c → c.isWhitespace = false))
  ∧ (∀ msg : JetMsg,
        (∀ c ∈ (recordText msg).data, c.isWhitespace = true) →
          parseJetstreamMsg (.parsed msg) = none) := by
  constructor
  · rintro raw t did h
    cases raw with
    | malformed => exact Option.noConfusion h
    | parsed msg =>
        simp only [parseJetstreamMsg] at h
        by_cases hk : msg.kind ≠ some "commit"
        · rw [if_pos hk] at h
          exact Option.noConfusion h
        · rw [if_neg hk] at h
          cases hcm : msg.commit with
          | none =>
              rw [hcm] at h
              exact Option.noConfusion h
          | some commit =>
              rw [hcm] at h
              have h2 : parseCommit msg commit = some (t, did) := h
              unfold parseCommit at h2
              by_cases hop : commit.operation ≠ some "create"
              · rw [if_pos hop] at h2
                exact Option.noConfusion h2
              · rw [if_neg hop] at h2
                by_cases hcol : commit.collection ≠ some "app.bsky.feed.post"
                · rw [if_pos hcol] at h2
                  exact Option.noConfusion h2
                · rw [if_neg hcol] at h2
                  have h3 :
                      (if String.mk (pyStrip ((commit.record.getD ⟨none⟩).text.getD "").data)
                            = "" then (none : Option (String × String))
                       else some
                         (String.mk (pyStrip ((commit.record.getD ⟨none⟩).text.getD "").data),
                          msg.did.getD "unknown")) = some (t, did) := h2
                  by_cases hemp :
                      String.mk (pyStrip ((commit.record.getD ⟨none⟩).text.getD "").data) = ""
                  · rw [if_pos hemp] at h3
                    exact Option.noConfusion h3
                  · rw [if_neg hemp] at h3
                    injection h3 with hpair
                    have ht : t = String.mk
                        (pyStrip ((commit.record.getD ⟨none⟩).text.getD "").data) :=
                      (congrArg Prod.fst hpair).symm
                    subst ht
                    have hne : pyStrip ((commit.record.getD ⟨none⟩).text.getD "").data ≠ [] := by
                      intro h0
                      exact hemp (by rw [h0])
                    constructor
                    · intro ch hc
                      exact head_dropWhile_false Char.isWhitespace _ ch hc
                    · intro ch hc
                      have hdw := getLast_dropWhile_eq Char.isWhitespace
                        ((((commit.record.getD ⟨none⟩).text.getD "").data.reverse.dropWhile
                            Char.isWhitespace).reverse) hne
                      have hrev := getLast_reverse_eq_head
                        (((commit.record.getD ⟨none⟩).text.getD "").data.reverse.dropWhile
                          Char.isWhitespace)
                      apply head_dropWhile_false Char.isWhitespace
                        ((commit.record.getD ⟨none⟩).text.getD "").data.reverse ch
                      rw [← hrev, ← hdw]
                      exact hc
  · intro msg hws
    simp only [parseJetstreamMsg]
    by_cases hk : msg.kind ≠ some "commit"
    · rw [if_pos hk]
    · rw [if_neg hk]
      cases hcm : msg.commit with
      | none => rfl
      | some commit =>
          show parseCommit msg commit = none
          unfold parseCommit
          by_cases hop : commit.operation ≠ some "create"
          · rw [if_pos hop]
          · rw [if_neg hop]
            by_cases hcol : commit.collection ≠ some "app.bsky.feed.post"
            · rw [if_pos hcol]
            · rw [if_neg hcol]
              have hrt : recordText msg = (commit.record.getD ⟨none⟩).text.getD "" := by
                unfold recordText
                rw [hcm]
              have hnil : pyStrip ((commit.record.getD ⟨none⟩).text.getD "").data = [] := by
                apply pyStrip_eq_nil
                intro ch hch
                apply hws
                rw [hrt]
                exact hch
              show (if String.mk (pyStrip ((commit.record.getD ⟨none⟩).text.getD "").data)
                      = "" then (none : Option (String × String))
                    else some
                      (String.mk (pyStrip ((commit.record.getD ⟨none⟩).text.getD "").data),
                       msg.did.getD "unknown")) = none
              rw [hnil]
              rfl

/-- Witness for `parse_strips_text`: a text with surrounding blanks is
accepted stripped, and a whitespace-only text is dropped. -/
theorem parse_strips_text_witness :
    parseJetstreamMsg (.parsed demoEnvelope) = some ("hello", "did:plc:x")
  ∧ Char.isWhitespace 'h' = false
  ∧ parseJetstreamMsg (.parsed demoEnvelopeBlank) = none :=
  ⟨by decide,
   (parse_strips_text.1 (.parsed demoEnvelope) "hello" "did:plc:x" (by decide)).1
     'h' (by decide),
   parse_strips_text.2 demoEnvelopeBlank (by decide)⟩

end LngAlphaFeed
